import Mathlib

/-!
Verification development for the cross-window timer synchronization core of
the activity-tracker application.

Shallow embedding conventions:
* ISO-8601 timestamp strings are represented by the instant they denote, as
  epoch milliseconds (`Int`).  An `Option Int` payload field models the JS
  truthiness check `if (msg.payload.startTime)`: `none` stands for an absent
  (or empty, hence falsy) string, `some t` for a non-empty ISO string for the
  instant `t`.  Invalid (unparseable) date strings are outside this embedding;
  the source's `isNaN` guards are therefore always passed.
* `Math.floor((now - start) / 1000)` is floor division, `Int.fdiv _ 1000`.
* React `useState`/`useRef` cells of one Timer component instance are
  gathered into one record (`TimerCtx`).  Setter calls (`setSeconds`, ...)
  become field updates on the successor record; reads of the captured
  `const` state variables inside a single handler body keep referring to the
  record the handler started from, mirroring React's closure semantics.
-/

namespace ActivityTracker

/-- The six message kinds of `TimerSyncMessage.type` in
`src/src/utils/timerSync.ts`. -/
inductive MsgType where
  | timerStart
  | timerPause
  | timerStop
  | timerSave
  | timerClear
  | categoryUpdate
deriving DecidableEq

/-- The `payload` field of `TimerSyncMessage` (timerSync.ts): all three
fields are optional.  `startTime` carries the denoted instant in epoch
milliseconds (see the embedding conventions above). -/
structure SyncPayload where
  isRunning : Option Bool
  startTime : Option Int
  selectedCategory : Option (Option String)
deriving DecidableEq

/-- A `SyncPayload` with no field set, the `{}` default of `sendMessage`. -/
def emptyPayload : SyncPayload := ⟨none, none, none⟩

/-- `TimerSyncMessage` from `src/src/utils/timerSync.ts`: kind, revision,
wall-clock timestamp (epoch millis) and payload. -/
structure TimerSyncMessage where
  type : MsgType
  revision : Nat
  timestamp : Int
  payload : SyncPayload
deriving DecidableEq

/-- The mutable cells of one Timer component instance (part_003 variant of
`Timer`): `revisionRef.current`, `lastMsgRef.current = {revision, timestamp}`
and the timer state proper (`isRunning`, `seconds`, `startTime`).  The
derived display string `startTimeLocal` is always
`formatForDateTimeInput startTime` and is omitted. -/
structure TimerCtx where
  revisionRef : Nat
  lastRevision : Nat
  lastTimestamp : Int
  isRunning : Bool
  seconds : Int
  startTime : Int
deriving DecidableEq

/-- The body of `handleIncomingMessage` (src/unnamed/part_003, lines 74-112)
past the early-return ordering guard: record the message as last applied,
update `revisionRef`, and run the `switch (msg.type)`.  Note the switch has
no `category-update` case, so that kind falls to `default: break`. -/
def applyTimerSyncMessage (ctx : TimerCtx) (msg : TimerSyncMessage) (now : Int) : TimerCtx :=
  let ctx1 : TimerCtx :=
    { ctx with lastRevision := msg.revision, lastTimestamp := msg.timestamp,
               revisionRef := msg.revision }
  match msg.type with
  | .timerStart =>
      match msg.payload.startTime with
      | some st =>
          { ctx1 with startTime := st,
                      seconds := max 0 (Int.fdiv (now - st) 1000),
                      isRunning := true }
      | none => { ctx1 with isRunning := true }
  | .timerPause => { ctx1 with isRunning := false }
  | .timerStop => { ctx1 with isRunning := false }
  | .timerSave =>
      match msg.payload.startTime with
      | some st => { ctx1 with isRunning := false, seconds := 0, startTime := st }
      | none => { ctx1 with isRunning := false, seconds := 0, startTime := now }
  | .timerClear =>
      match msg.payload.startTime with
      | some st => { ctx1 with isRunning := false, seconds := 0, startTime := st }
      | none => { ctx1 with isRunning := false, seconds := 0, startTime := now }
  | .categoryUpdate => ctx1

/-- `handleIncomingMessage` (src/unnamed/part_003, lines 66-113; the variant
in `src/src/components/Timer.tsx` lines 336-382 is identical except that it
does not update `revisionRef`): drop the message when
`msg.revision < last.revision || (msg.revision === last.revision &&
msg.timestamp <= last.timestamp)`, else apply it. -/
def handleIncomingMessage (ctx : TimerCtx) (msg : TimerSyncMessage) (now : Int) : TimerCtx :=
  if msg.revision < ctx.lastRevision ∨
     (msg.revision = ctx.lastRevision ∧ msg.timestamp ≤ ctx.lastTimestamp)
  then ctx
  else applyTimerSyncMessage ctx msg now

/-- The spec's ordering invariant, stated in the spec's own words: message
with stamp `(r, t)` is newer than the last-applied stamp `(lr, lt)` iff
`r > lr`, or `r = lr` and `t > lt`.  Declared separately from the source's
(negated) guard so that their equivalence is a theorem, not a definition. -/
def specNewerThan (r : Nat) (t : Int) (lr : Nat) (lt : Int) : Prop :=
  lr < r ∨ (r = lr ∧ lt < t)

instance (r : Nat) (t : Int) (lr : Nat) (lt : Int) :
    Decidable (specNewerThan r t lr lt) :=
  inferInstanceAs (Decidable (_ ∨ _))

/-- Result of a user-action handler of the Timer component: the successor
context, the emit requests handed to `sendMessage` (kind and payload; the
revision/timestamp stamping performed inside `sendMessage` is modelled
separately), the `onSave(duration, startTime, endTime)` calls, and the
`alert(...)` messages shown. -/
structure HandlerResult where
  ctx : TimerCtx
  emits : List (MsgType × SyncPayload)
  saves : List (Int × Int × Int)
  alerts : List String
deriving DecidableEq

/-- `handleStartStop` (src/unnamed/part_003, lines 206-249; same logic at
src/src/components/Timer.tsx lines 457-500): reject with an alert when no
category is selected; on a fresh start (`seconds === 0`) normalize a future
`startTime` to `now` and recompute seconds from the original `startTime`
(the local `const startTime` captured by the closure, which `setStartTime`
does not change within this handler); emit `timer-start` with the original
`startTime`, or `timer-pause` when pausing.  The invalid-date early return
is unreachable here because the embedding carries only valid instants. -/
def handleStartStop (selectedCategory : Option String) (ctx : TimerCtx) (now : Int) :
    HandlerResult :=
  match selectedCategory with
  | none => ⟨ctx, [], [], ["Please select a category before starting the timer"]⟩
  | some _ =>
      if ctx.isRunning then
        ⟨{ ctx with isRunning := false }, [(.timerPause, ⟨some false, none, none⟩)], [], []⟩
      else
        if ctx.seconds = 0 then
          let st1 := if now < ctx.startTime then now else ctx.startTime
          let diff := Int.fdiv (now - ctx.startTime) 1000
          ⟨{ ctx with startTime := st1,
                      seconds := if 0 < diff then diff else 0,
                      isRunning := true },
           [(.timerStart, ⟨some true, some ctx.startTime, none⟩)], [], []⟩
        else
          ⟨{ ctx with isRunning := true },
           [(.timerStart, ⟨some true, some ctx.startTime, none⟩)], [], []⟩

/-- `handleSave` (src/unnamed/part_003, lines 272-295): reject with an alert
when no category is selected; otherwise stop, hand
`(seconds, startTime, endTime)` to the `onSave` collaborator, reset seconds
to 0, resynchronize `startTime` to now, and emit `timer-save` with the fresh
`startTime`.  The two `new Date()` calls inside the handler are both
modelled as `now`. -/
def handleSave (selectedCategory : Option String) (ctx : TimerCtx) (now : Int) :
    HandlerResult :=
  match selectedCategory with
  | none => ⟨ctx, [], [], ["Please select a category before saving"]⟩
  | some _ =>
      ⟨{ ctx with isRunning := false, seconds := 0, startTime := now },
       [(.timerSave, ⟨some false, some now, none⟩)],
       [(ctx.seconds, ctx.startTime, now)], []⟩

/-- `sendMessage` of the `src/src/components/Timer.tsx` variant (lines
324-334): the revision is `revisionRef.current + 1`, a purely local counter
(this variant does not call `nextRevision`); the message is recorded as last
sent and broadcast. -/
def sendMessageLocal (ctx : TimerCtx) (t : MsgType) (p : SyncPayload) (ts : Int) :
    TimerCtx × TimerSyncMessage :=
  let msg : TimerSyncMessage := ⟨t, ctx.revisionRef + 1, ts, p⟩
  ({ ctx with revisionRef := ctx.revisionRef + 1,
              lastRevision := msg.revision, lastTimestamp := msg.timestamp },
   msg)

/-- `handleIncomingMessage` of the `src/src/components/Timer.tsx` variant
(lines 336-382): identical to the part_003 variant except that the accepted
branch does not update `revisionRef`. -/
def handleIncomingMessageLocal (ctx : TimerCtx) (msg : TimerSyncMessage) (now : Int) :
    TimerCtx :=
  if msg.revision < ctx.lastRevision ∨
     (msg.revision = ctx.lastRevision ∧ msg.timestamp ≤ ctx.lastTimestamp)
  then ctx
  else
    let ctx1 : TimerCtx :=
      { ctx with lastRevision := msg.revision, lastTimestamp := msg.timestamp }
    match msg.type with
    | .timerStart =>
        match msg.payload.startTime with
        | some st =>
            { ctx1 with startTime := st,
                        seconds := max 0 (Int.fdiv (now - st) 1000),
                        isRunning := true }
        | none => { ctx1 with isRunning := true }
    | .timerPause => { ctx1 with isRunning := false }
    | .timerStop => { ctx1 with isRunning := false }
    | .timerSave =>
        match msg.payload.startTime with
        | some st => { ctx1 with isRunning := false, seconds := 0, startTime := st }
        | none => { ctx1 with isRunning := false, seconds := 0, startTime := now }
    | .timerClear =>
        match msg.payload.startTime with
        | some st => { ctx1 with isRunning := false, seconds := 0, startTime := st }
        | none => { ctx1 with isRunning := false, seconds := 0, startTime := now }
    | .categoryUpdate => ctx1

/-- Shared state of the revision counter (src/src/utils/timerSync.ts): the
persisted `REVISION_KEY` value (`0` when the key is absent, matching
`stored ? parseInt(stored, 10) : 0`), and the module-level `currentRevision`
cache of each browsing context, as a total map from context index. -/
structure RevGlobal where
  storage : Nat
  caches : Nat → Nat

/-- `nextRevision` (timerSync.ts lines 60-72), success path: read the
persisted counter, increment, write back, update this context's cache,
return the new value. -/
def nextRevisionOk (g : RevGlobal) (i : Nat) : Nat × RevGlobal :=
  let next := g.storage + 1
  (next, ⟨next, Function.update g.caches i next⟩)

/-- `nextRevision` (timerSync.ts lines 60-72), catch path taken when storage
access throws: increment only the in-memory cache and return it; the
persisted value is untouched. -/
def nextRevisionFail (g : RevGlobal) (i : Nat) : Nat × RevGlobal :=
  let v := g.caches i + 1
  (v, ⟨g.storage, Function.update g.caches i v⟩)

/-- `syncRevision` (timerSync.ts lines 74-83): when
`revision > currentRevision` of context `i`, the cache is updated to `r`
and the `localStorage.setItem` write of the persisted value is attempted
inside a try/catch — `writeOk` tells whether that write succeeds; a failing
write is swallowed and leaves the persisted value unchanged.  When
`revision` does not exceed the cache, the call no-ops. -/
def syncRevision (g : RevGlobal) (i : Nat) (r : Nat) (writeOk : Bool) : RevGlobal :=
  if g.caches i < r then
    ⟨if writeOk then r else g.storage, Function.update g.caches i r⟩
  else g

/-- One revision-counter operation: a `nextRevision` call by context `i`
that succeeds, one that takes the storage-failure fallback, or a
`syncRevision r` by context `i` whose persisted write succeeds iff
`writeOk`. -/
inductive RevOp where
  | nextOk (i : Nat)
  | nextFail (i : Nat)
  | syncOp (i : Nat) (r : Nat) (writeOk : Bool)
deriving DecidableEq

/-- Whether a `RevOp` is a successful `nextRevision` call. -/
def RevOp.isNextOk : RevOp → Bool
  | .nextOk _ => true
  | _ => false

/-- Run one revision-counter operation. -/
def revStep (g : RevGlobal) : RevOp → RevGlobal
  | .nextOk i => (nextRevisionOk g i).2
  | .nextFail i => (nextRevisionFail g i).2
  | .syncOp i r w => syncRevision g i r w

/-- The values returned by the `nextRevision` calls of an operation
sequence, in execution order. -/
def revReturns (g : RevGlobal) : List RevOp → List Nat
  | [] => []
  | .nextOk i :: ops => (nextRevisionOk g i).1 :: revReturns (revStep g (.nextOk i)) ops
  | .nextFail i :: ops => (nextRevisionFail g i).1 :: revReturns (revStep g (.nextFail i)) ops
  | .syncOp i r w :: ops => revReturns (revStep g (.syncOp i r w)) ops

/-- One browsing context of the part_003 Timer variant together with its
slice of timerSync module state: the component cells (`ctx`), this context's
`currentRevision` cache, and the persisted revision storage (not touched by
any other context during the modelled trace; every storage access
succeeds). -/
structure SyncCtx where
  ctx : TimerCtx
  cache : Nat
  storage : Nat

/-- `syncRevision` as seen from within one `SyncCtx`. -/
def syncRevisionCtx (s : SyncCtx) (r : Nat) : SyncCtx :=
  if s.cache < r then { s with cache := r, storage := r } else s

/-- `sendMessage` of the part_003 variant (lines 50-64): obtain
`nextRevision()` (success path: persisted value + 1, with cache and storage
updated), stamp the message, update `revisionRef` and `lastMsgRef`, and
broadcast — `broadcastTimerMessage` runs `syncRevision(msg.revision)` before
posting (timerSync.ts lines 124-137). -/
def sendMessageCounter (s : SyncCtx) (t : MsgType) (p : SyncPayload) (ts : Int) :
    SyncCtx × TimerSyncMessage :=
  let rev := s.storage + 1
  let msg : TimerSyncMessage := ⟨t, rev, ts, p⟩
  let s1 : SyncCtx :=
    { ctx := { s.ctx with revisionRef := rev, lastRevision := rev, lastTimestamp := ts },
      cache := rev, storage := rev }
  (syncRevisionCtx s1 msg.revision, msg)

/-- Receiving a message in a context: `dispatch` (timerSync.ts lines 40-43)
first runs `syncRevision(msg.revision)`, then invokes the registered
listener, here `handleIncomingMessage` of the part_003 Timer variant. -/
def recvMessage (s : SyncCtx) (m : TimerSyncMessage) (now : Int) : SyncCtx :=
  let s1 := syncRevisionCtx s m.revision
  { s1 with ctx := handleIncomingMessage s1.ctx m now }

/-- One step of a single context's trace: receive an inbound message (with
the local clock reading used by the handler), or emit a message of the given
kind and payload at the given wall-clock timestamp. -/
inductive SyncOp where
  | recv (m : TimerSyncMessage) (now : Int)
  | send (t : MsgType) (p : SyncPayload) (ts : Int)

/-- Run a trace of receive/emit steps. -/
def runSync (s : SyncCtx) : List SyncOp → SyncCtx
  | [] => s
  | .recv m now :: ops => runSync (recvMessage s m now) ops
  | .send t p ts :: ops => runSync (sendMessageCounter s t p ts).1 ops

/-- All revisions the context sees along a trace: the revision of every
inbound message (observed) and of every message it emits. -/
def revsSeen (s : SyncCtx) : List SyncOp → List Nat
  | [] => []
  | .recv m now :: ops => m.revision :: revsSeen (recvMessage s m now) ops
  | .send t p ts :: ops =>
      (sendMessageCounter s t p ts).2.revision ::
        revsSeen (sendMessageCounter s t p ts).1 ops

/-- Wall-clock milliseconds of instant `t` in a local timezone modelled as a
fixed UTC offset of `offsetMinutes` minutes (the external `date-fns-tz`
zone conversions at a constant-offset zone). -/
def wallClockMillis (offsetMinutes t : Int) : Int := t + offsetMinutes * 60000

/-- `formatForDateTimeInput` (src/unnamed/part_010, lines 203-211): convert
the instant to local wall-clock time and print `yyyy-MM-dd'T'HH:mm` — the
string is represented by the wall-clock minute index it displays, i.e. the
wall-clock milliseconds floor-divided by 60000 (seconds truncated). -/
def formatForDateTimeInput (offsetMinutes t : Int) : Int :=
  Int.fdiv (wallClockMillis offsetMinutes t) 60000

/-- `parseFromDateTimeInput` (src/unnamed/part_010, lines 216-229):
`new Date(inputValue)` reads the datetime-local string as local wall-clock
time and `zonedTimeToUtc` of the same zone maps it back to the UTC instant:
wall-clock minutes times 60000, minus the zone offset. -/
def parseFromDateTimeInput (offsetMinutes wallMinutes : Int) : Int :=
  wallMinutes * 60000 - offsetMinutes * 60000

/-- The instant `t` truncated to one-minute granularity. -/
def truncateToMinute (t : Int) : Int := 60000 * Int.fdiv t 60000

theorem applyTimerSyncMessage_lastRevision (ctx : TimerCtx) (msg : TimerSyncMessage)
    (now : Int) :
    (applyTimerSyncMessage ctx msg now).lastRevision = msg.revision ∧
    (applyTimerSyncMessage ctx msg now).lastTimestamp = msg.timestamp := by
  unfold applyTimerSyncMessage
  cases msg.type <;> cases h : msg.payload.startTime <;> simp [h]

/-- Claim C1: an inbound message is forwarded to the application switch iff
it is strictly newer than the last-applied `(revision, timestamp)` pair —
`msg.revision > lastRevision`, or equal revision and strictly greater
timestamp — and otherwise the whole context (timer state and last-applied
pair) is returned unchanged. -/
theorem timer_forward_iff_strictly_newer (ctx : TimerCtx) (msg : TimerSyncMessage)
    (now : Int) :
    handleIncomingMessage ctx msg now =
      if specNewerThan msg.revision msg.timestamp ctx.lastRevision ctx.lastTimestamp
      then applyTimerSyncMessage ctx msg now
      else ctx := by
  unfold handleIncomingMessage specNewerThan
  split <;> split <;> first | rfl | omega

/-- Claim C5: applying the same message twice in succession (at arbitrary
local clock readings) equals applying it once: the second delivery has equal
revision and equal timestamp, hence is not strictly newer and is dropped. -/
theorem apply_twice_eq_apply_once (ctx : TimerCtx) (msg : TimerSyncMessage)
    (now1 now2 : Int) :
    handleIncomingMessage (handleIncomingMessage ctx msg now1) msg now2 =
      handleIncomingMessage ctx msg now1 := by
  unfold handleIncomingMessage
  split
  · rfl
  · have h := applyTimerSyncMessage_lastRevision ctx msg now1
    split
    · rfl
    · omega

/-- Claim C2, counterexample: with M1 = timer-start (revision 5, carrying a
startTime) and M2 = timer-pause (revision 6), delivering M2 then M1 does not
equal delivering M1 then M2 in revision order — the late M1 is dropped, so
its startTime and recomputed seconds never take effect. -/
theorem out_of_order_differs_from_in_order :
    handleIncomingMessage
        (handleIncomingMessage ⟨0, 0, 0, false, 0, 0⟩
          ⟨MsgType.timerPause, 6, 200, ⟨some false, none, none⟩⟩ 100000)
        ⟨MsgType.timerStart, 5, 100, ⟨some true, some 50, none⟩⟩ 100000 ≠
      handleIncomingMessage
        (handleIncomingMessage ⟨0, 0, 0, false, 0, 0⟩
          ⟨MsgType.timerStart, 5, 100, ⟨some true, some 50, none⟩⟩ 100000)
        ⟨MsgType.timerPause, 6, 200, ⟨some false, none, none⟩⟩ 100000 := by
  decide

/-- Claim C2, amended: delivering M2 (revision 6) and then M1 (revision 5)
to a context, in that order, yields the same final state as delivering M2
alone — the late lower-revision M1 is dropped and has no effect — for every
initial context and every pair of message kinds. -/
theorem late_lower_revision_no_effect (ctx : TimerCtx) (m1 m2 : TimerSyncMessage)
    (n1 n2 : Int) (h1 : m1.revision = 5) (h2 : m2.revision = 6) :
    handleIncomingMessage (handleIncomingMessage ctx m2 n1) m1 n2 =
      handleIncomingMessage ctx m2 n1 := by
  unfold handleIncomingMessage
  split
  · split
    · rfl
    · omega
  · obtain ⟨hr, ht⟩ := applyTimerSyncMessage_lastRevision ctx m2 n1
    split
    · rfl
    · omega

theorem late_lower_revision_no_effect_witness :
    handleIncomingMessage
        (handleIncomingMessage ⟨0, 0, 0, false, 0, 0⟩
          ⟨MsgType.timerStop, 6, 200, ⟨some false, none, none⟩⟩ 11)
        ⟨MsgType.timerStart, 5, 100, ⟨some true, some 50, none⟩⟩ 22 =
      handleIncomingMessage ⟨0, 0, 0, false, 0, 0⟩
        ⟨MsgType.timerStop, 6, 200, ⟨some false, none, none⟩⟩ 11 :=
  late_lower_revision_no_effect ⟨0, 0, 0, false, 0, 0⟩
    ⟨MsgType.timerStart, 5, 100, ⟨some true, some 50, none⟩⟩
    ⟨MsgType.timerStop, 6, 200, ⟨some false, none, none⟩⟩ 11 22 rfl rfl

/-- Claim C6: once a timer-save or timer-clear message is accepted, the
resulting context has `isRunning = false` and `seconds = 0`, and its
`startTime` is the payload's `startTime` when that field is present, else
the receiver's current time. -/
theorem save_clear_resets_state (ctx : TimerCtx) (msg : TimerSyncMessage) (now : Int)
    (hk : msg.type = MsgType.timerSave ∨ msg.type = MsgType.timerClear)
    (hn : specNewerThan msg.revision msg.timestamp ctx.lastRevision ctx.lastTimestamp) :
    (handleIncomingMessage ctx msg now).isRunning = false ∧
    (handleIncomingMessage ctx msg now).seconds = 0 ∧
    (handleIncomingMessage ctx msg now).startTime =
      (match msg.payload.startTime with | some st => st | none => now) := by
  have hg : ¬(msg.revision < ctx.lastRevision ∨
      (msg.revision = ctx.lastRevision ∧ msg.timestamp ≤ ctx.lastTimestamp)) := by
    unfold specNewerThan at hn
    omega
  unfold handleIncomingMessage
  rw [if_neg hg]
  unfold applyTimerSyncMessage
  rcases hk with hk | hk <;> rw [hk] <;> cases h : msg.payload.startTime <;> simp [h]

theorem save_clear_resets_state_witness :
    (handleIncomingMessage ⟨0, 0, 0, true, 42, 7⟩
        ⟨MsgType.timerSave, 3, 9, ⟨some false, some 777, none⟩⟩ 555).isRunning = false ∧
    (handleIncomingMessage ⟨0, 0, 0, true, 42, 7⟩
        ⟨MsgType.timerSave, 3, 9, ⟨some false, some 777, none⟩⟩ 555).seconds = 0 ∧
    (handleIncomingMessage ⟨0, 0, 0, true, 42, 7⟩
        ⟨MsgType.timerSave, 3, 9, ⟨some false, some 777, none⟩⟩ 555).startTime = 777 :=
  save_clear_resets_state ⟨0, 0, 0, true, 42, 7⟩
    ⟨MsgType.timerSave, 3, 9, ⟨some false, some 777, none⟩⟩ 555
    (Or.inl rfl) (by decide)

/-- Claim C9: an accepted category-update message leaves the timer fields
(`isRunning`, `seconds`, `startTime`) of the Timer component unchanged —
the switch has no case for it — yet still advances the last-applied
`(revision, timestamp)` pair, so a subsequently delivered message with a
lower revision is dropped. -/
theorem category_update_frame_effect (ctx : TimerCtx) (msg : TimerSyncMessage) (now : Int)
    (hk : msg.type = MsgType.categoryUpdate)
    (hn : specNewerThan msg.revision msg.timestamp ctx.lastRevision ctx.lastTimestamp) :
    (handleIncomingMessage ctx msg now).isRunning = ctx.isRunning ∧
    (handleIncomingMessage ctx msg now).seconds = ctx.seconds ∧
    (handleIncomingMessage ctx msg now).startTime = ctx.startTime ∧
    (handleIncomingMessage ctx msg now).lastRevision = msg.revision ∧
    (handleIncomingMessage ctx msg now).lastTimestamp = msg.timestamp ∧
    ∀ (m2 : TimerSyncMessage) (n2 : Int), m2.revision < msg.revision →
      handleIncomingMessage (handleIncomingMessage ctx msg now) m2 n2 =
        handleIncomingMessage ctx msg now := by
  have hg : ¬(msg.revision < ctx.lastRevision ∨
      (msg.revision = ctx.lastRevision ∧ msg.timestamp ≤ ctx.lastTimestamp)) := by
    unfold specNewerThan at hn
    omega
  have hres : handleIncomingMessage ctx msg now =
      { ctx with lastRevision := msg.revision, lastTimestamp := msg.timestamp,
                 revisionRef := msg.revision } := by
    unfold handleIncomingMessage applyTimerSyncMessage
    rw [if_neg hg, hk]
  refine ⟨by rw [hres], by rw [hres], by rw [hres], by rw [hres], by rw [hres], ?_⟩
  intro m2 n2 hlt
  rw [hres]
  unfold handleIncomingMessage
  rw [if_pos (Or.inl hlt)]

theorem category_update_frame_effect_witness :
    (handleIncomingMessage ⟨1, 2, 5, true, 9, 33⟩
        ⟨MsgType.categoryUpdate, 7, 10, ⟨none, none, some (some "work")⟩⟩ 0).isRunning = true ∧
    (handleIncomingMessage ⟨1, 2, 5, true, 9, 33⟩
        ⟨MsgType.categoryUpdate, 7, 10, ⟨none, none, some (some "work")⟩⟩ 0).seconds = 9 ∧
    (handleIncomingMessage ⟨1, 2, 5, true, 9, 33⟩
        ⟨MsgType.categoryUpdate, 7, 10, ⟨none, none, some (some "work")⟩⟩ 0).startTime = 33 ∧
    (handleIncomingMessage ⟨1, 2, 5, true, 9, 33⟩
        ⟨MsgType.categoryUpdate, 7, 10, ⟨none, none, some (some "work")⟩⟩ 0).lastRevision = 7 ∧
    (handleIncomingMessage ⟨1, 2, 5, true, 9, 33⟩
        ⟨MsgType.categoryUpdate, 7, 10, ⟨none, none, some (some "work")⟩⟩ 0).lastTimestamp = 10 ∧
    handleIncomingMessage
        (handleIncomingMessage ⟨1, 2, 5, true, 9, 33⟩
          ⟨MsgType.categoryUpdate, 7, 10, ⟨none, none, some (some "work")⟩⟩ 0)
        ⟨MsgType.timerPause, 3, 99, ⟨none, none, none⟩⟩ 4 =
      handleIncomingMessage ⟨1, 2, 5, true, 9, 33⟩
        ⟨MsgType.categoryUpdate, 7, 10, ⟨none, none, some (some "work")⟩⟩ 0 := by
  have h := category_update_frame_effect ⟨1, 2, 5, true, 9, 33⟩
    ⟨MsgType.categoryUpdate, 7, 10, ⟨none, none, some (some "work")⟩⟩ 0 rfl (by decide)
  exact ⟨h.1, h.2.1, h.2.2.1, h.2.2.2.1, h.2.2.2.2.1,
    h.2.2.2.2.2 ⟨MsgType.timerPause, 3, 99, ⟨none, none, none⟩⟩ 4 (by decide)⟩

/-- Claim C7, counterexample: an accepted incoming timer-start whose payload
startTime (200000) lies in the future of the receiver's clock (100000) is
stored as-is — the stored startTime after processing is in the future, not
normalized to now. -/
theorem incoming_future_start_not_normalized :
    100000 <
      (handleIncomingMessage ⟨0, 0, 0, false, 0, 0⟩
          ⟨MsgType.timerStart, 1, 1, ⟨some true, some 200000, none⟩⟩ 100000).startTime := by
  decide

/-- Claim C7, amended: only the locally-initiated fresh start (not running,
zero elapsed seconds) normalizes a future startTime to the local now before
storing it, so its stored startTime is never in the future; an accepted
incoming timer-start adopts the payload startTime unchanged (only the
derived elapsed seconds are clamped to be nonnegative). -/
theorem local_fresh_start_normalizes_future (c : String) (ctx : TimerCtx) (now : Int)
    (h1 : ctx.isRunning = false) (h2 : ctx.seconds = 0) :
    (handleStartStop (some c) ctx now).ctx.startTime ≤ now := by
  simp [handleStartStop, h1, h2]
  split <;> omega

theorem local_fresh_start_normalizes_future_witness :
    (handleStartStop (some "work") ⟨0, 0, 0, false, 0, 500⟩ 100).ctx.startTime ≤ 100 :=
  local_fresh_start_normalizes_future "work" ⟨0, 0, 0, false, 0, 500⟩ 100 rfl rfl

/-- Claim C8: with no category selected, the start/resume handler and the
save handler each show a blocking validation message, leave the entire timer
context unchanged, emit no sync message, and hand nothing to onSave. -/
theorem null_category_rejects_without_mutation (ctx : TimerCtx) (now : Int) :
    handleStartStop none ctx now =
      ⟨ctx, [], [], ["Please select a category before starting the timer"]⟩ ∧
    handleSave none ctx now =
      ⟨ctx, [], [], ["Please select a category before saving"]⟩ :=
  ⟨rfl, rfl⟩

/-- Claim C10: for every local timezone (fixed UTC offset in minutes) and
every instant, parsing the datetime-local formatting of the instant yields
exactly the instant truncated to one-minute input granularity. -/
theorem datetime_input_round_trip (offsetMinutes t : Int) :
    parseFromDateTimeInput offsetMinutes (formatForDateTimeInput offsetMinutes t) =
      truncateToMinute t := by
  unfold parseFromDateTimeInput formatForDateTimeInput wallClockMillis truncateToMinute
  rw [Int.fdiv_eq_ediv _ (by norm_num : (0 : Int) ≤ 60000),
    Int.fdiv_eq_ediv _ (by norm_num : (0 : Int) ≤ 60000)]
  omega

/-- Claim C3, counterexample, refuting both conjuncts of the claim.  First:
a `nextRevision` call that takes the storage-failure fallback, followed by a
successful call in the same context, returns `[1, 1]` — the values observed
by that single context are not strictly increasing.  Second: `syncRevision`
can decrease the persisted revision value — a context with stale cache 1
while the persisted value is 5 receives revision 3 and writes 3 over the
persisted 5 (the write itself succeeding). -/
theorem fallback_breaks_strict_increase :
    (revReturns ⟨0, fun _ => 0⟩ [RevOp.nextFail 0, RevOp.nextOk 0] = [1, 1] ∧
     ¬ List.Pairwise (· < ·)
        (revReturns ⟨0, fun _ => 0⟩ [RevOp.nextFail 0, RevOp.nextOk 0])) ∧
    ((syncRevision ⟨5, fun _ => 1⟩ 0 3 true).storage = 3 ∧
     (syncRevision ⟨5, fun _ => 1⟩ 0 3 true).storage <
       (⟨5, fun _ => 1⟩ : RevGlobal).storage) := by
  decide

theorem revReturns_nextOk_strict_mono (ops : List RevOp) :
    ∀ g : RevGlobal, (∀ op ∈ ops, op.isNextOk = true) →
      List.Pairwise (· < ·) (revReturns g ops) ∧
      ∀ v ∈ revReturns g ops, g.storage < v := by
  induction ops with
  | nil =>
      intro g _
      exact ⟨List.Pairwise.nil, by intro v hv; simp [revReturns] at hv⟩
  | cons op ops ih =>
      intro g h
      cases op with
      | nextOk i =>
          have hops : ∀ op ∈ ops, op.isNextOk = true :=
            fun o ho => h o (List.mem_cons_of_mem _ ho)
          obtain ⟨hc, hb⟩ := ih (revStep g (.nextOk i)) hops
          simp only [revReturns]
          constructor
          · refine List.Pairwise.cons ?_ hc
            intro v hv
            have hv' := hb v hv
            simp only [revStep, nextRevisionOk] at hv'
            simp only [nextRevisionOk]
            omega
          · intro v hv
            rcases List.mem_cons.1 hv with hv | hv
            · subst hv
              simp only [nextRevisionOk]
              omega
            · have hv' := hb v hv
              simp only [revStep, nextRevisionOk] at hv'
              omega
      | nextFail i =>
          exact absurd (h _ (List.mem_cons_self _ _)) (by simp [RevOp.isNextOk])
      | syncOp i r w =>
          exact absurd (h _ (List.mem_cons_self _ _)) (by simp [RevOp.isNextOk])

/-- Claim C3, amended: when every `nextRevision` call in the sequence
succeeds (none takes the storage-failure fallback) and no `syncRevision`
interleaves, the returned values are strictly increasing in execution order
(hence in the order observed by any single context).  `syncRevision r`
never decreases a context's cached value and no-ops when `r` does not
exceed it; when `r` exceeds the cache it sets the cache to `r` and attempts
to persist `r` — the persisted value becomes `r` when the write succeeds
and is left unchanged when the write fails. -/
theorem revision_counter_monotonicity (g : RevGlobal) (ops : List RevOp) (i r : Nat)
    (w : Bool) (h : ∀ op ∈ ops, op.isNextOk = true) :
    List.Pairwise (· < ·) (revReturns g ops) ∧
    g.caches i ≤ (syncRevision g i r w).caches i ∧
    (r ≤ g.caches i → syncRevision g i r w = g) ∧
    (g.caches i < r →
      (syncRevision g i r w).caches i = r ∧
      (w = true → (syncRevision g i r w).storage = r) ∧
      (w = false → (syncRevision g i r w).storage = g.storage)) := by
  refine ⟨(revReturns_nextOk_strict_mono ops g h).1, ?_, ?_, ?_⟩
  · unfold syncRevision
    split
    · simp only [Function.update]
      simp
      omega
    · exact le_refl _
  · intro hle
    unfold syncRevision
    rw [if_neg (by omega)]
  · intro hlt
    unfold syncRevision
    rw [if_pos hlt]
    refine ⟨by simp [Function.update], ?_, ?_⟩
    · intro hw
      rw [hw]
      simp
    · intro hw
      rw [hw]
      simp

theorem revision_counter_monotonicity_witness :
    List.Pairwise (· < ·)
      (revReturns ⟨0, fun _ => 0⟩ [RevOp.nextOk 0, RevOp.nextOk 1]) ∧
    (⟨0, fun _ => 0⟩ : RevGlobal).caches 0 ≤
      (syncRevision ⟨0, fun _ => 0⟩ 0 5 true).caches 0 ∧
    (5 ≤ (⟨0, fun _ => 0⟩ : RevGlobal).caches 0 →
      syncRevision ⟨0, fun _ => 0⟩ 0 5 true = ⟨0, fun _ => 0⟩) ∧
    ((⟨0, fun _ => 0⟩ : RevGlobal).caches 0 < 5 →
      (syncRevision ⟨0, fun _ => 0⟩ 0 5 true).caches 0 = 5 ∧
      (true = true → (syncRevision ⟨0, fun _ => 0⟩ 0 5 true).storage = 5) ∧
      (true = false →
        (syncRevision ⟨0, fun _ => 0⟩ 0 5 true).storage =
          (⟨0, fun _ => 0⟩ : RevGlobal).storage)) :=
  revision_counter_monotonicity ⟨0, fun _ => 0⟩ [RevOp.nextOk 0, RevOp.nextOk 1] 0 5
    true (by decide)

/-- Claim C4, counterexample: in the `src/src/components/Timer.tsx` variant
the outgoing revision is the local `revisionRef + 1`, not the shared
counter's `nextRevision()`: after observing (and applying) an inbound
message with revision 5, the next emitted message carries revision 1, which
is not greater than the previously observed revision 5. -/
theorem local_counter_emits_stale_revision :
    (sendMessageLocal
        (handleIncomingMessageLocal ⟨0, 0, 0, false, 0, 0⟩
          ⟨MsgType.timerPause, 5, 10, ⟨none, none, none⟩⟩ 0)
        MsgType.timerStart ⟨none, none, none⟩ 20).2.revision = 1 ∧
    ¬ (5 < (sendMessageLocal
        (handleIncomingMessageLocal ⟨0, 0, 0, false, 0, 0⟩
          ⟨MsgType.timerPause, 5, 10, ⟨none, none, none⟩⟩ 0)
        MsgType.timerStart ⟨none, none, none⟩ 20).2.revision) := by
  decide

theorem recvMessage_cache (s : SyncCtx) (m : TimerSyncMessage) (now : Int) :
    (recvMessage s m now).cache =
      if s.cache < m.revision then m.revision else s.cache := by
  unfold recvMessage syncRevisionCtx
  split <;> rfl

theorem recvMessage_storage (s : SyncCtx) (m : TimerSyncMessage) (now : Int) :
    (recvMessage s m now).storage =
      if s.cache < m.revision then m.revision else s.storage := by
  unfold recvMessage syncRevisionCtx
  split <;> rfl

theorem sendMessageCounter_state (s : SyncCtx) (t : MsgType) (p : SyncPayload)
    (ts : Int) :
    (sendMessageCounter s t p ts).1.cache = s.storage + 1 ∧
    (sendMessageCounter s t p ts).1.storage = s.storage + 1 ∧
    (sendMessageCounter s t p ts).2.revision = s.storage + 1 := by
  unfold sendMessageCounter syncRevisionCtx
  simp

theorem runSync_cache_dominates (ops : List SyncOp) :
    ∀ s : SyncCtx, s.cache ≤ s.storage →
      s.cache ≤ (runSync s ops).cache ∧
      (runSync s ops).cache ≤ (runSync s ops).storage ∧
      ∀ r ∈ revsSeen s ops, r ≤ (runSync s ops).cache := by
  induction ops with
  | nil =>
      intro s h
      exact ⟨le_refl _, h, by intro r hr; simp [revsSeen] at hr⟩
  | cons op ops ih =>
      intro s h
      cases op with
      | recv m now =>
          simp only [runSync, revsSeen]
          have h1 := recvMessage_cache s m now
          have h2 := recvMessage_storage s m now
          have hinv : (recvMessage s m now).cache ≤ (recvMessage s m now).storage := by
            rw [h1, h2]
            split <;> omega
          obtain ⟨ih1, ih2, ih3⟩ := ih (recvMessage s m now) hinv
          have hstep : s.cache ≤ (recvMessage s m now).cache ∧
              m.revision ≤ (recvMessage s m now).cache := by
            rw [h1]
            split <;> omega
          refine ⟨le_trans hstep.1 ih1, ih2, ?_⟩
          intro r hr
          rcases List.mem_cons.1 hr with hr | hr
          · subst hr
            exact le_trans hstep.2 ih1
          · exact ih3 r hr
      | send t p ts =>
          simp only [runSync, revsSeen]
          obtain ⟨hc, hs, hr⟩ := sendMessageCounter_state s t p ts
          have hinv : (sendMessageCounter s t p ts).1.cache ≤
              (sendMessageCounter s t p ts).1.storage := by omega
          obtain ⟨ih1, ih2, ih3⟩ := ih ((sendMessageCounter s t p ts).1) hinv
          refine ⟨by omega, ih2, ?_⟩
          intro r hrr
          rcases List.mem_cons.1 hrr with hrr | hrr
          · subst hrr
            omega
          · exact ih3 r hrr

/-- Claim C4, amended: in the part_003 Timer variant, `sendMessage` stamps
every outgoing message with the revision counter's `nextRevision()`; for a
single context whose storage operations all succeed and whose persisted
revision storage is not concurrently modified, the revision stamped on an
outgoing message is strictly greater than every revision that context has
previously observed (received from other contexts) or emitted.  The
`src/src/components/Timer.tsx` variant stamps a local counter instead and
does not have this property. -/
theorem emitted_revision_dominates_observed (s : SyncCtx) (ops : List SyncOp)
    (t : MsgType) (p : SyncPayload) (ts : Int) (h : s.cache ≤ s.storage) :
    ∀ r ∈ revsSeen s ops,
      r < (sendMessageCounter (runSync s ops) t p ts).2.revision := by
  obtain ⟨h1, h2, h3⟩ := runSync_cache_dominates ops s h
  intro r hr
  have hrc := h3 r hr
  have hrev := (sendMessageCounter_state (runSync s ops) t p ts).2.2
  omega

theorem emitted_revision_dominates_observed_witness :
    (5 : Nat) < (sendMessageCounter
        (runSync ⟨⟨0, 0, 0, false, 0, 0⟩, 0, 0⟩
          [SyncOp.recv ⟨MsgType.timerPause, 5, 10, ⟨none, none, none⟩⟩ 0])
        MsgType.timerStart ⟨none, none, none⟩ 20).2.revision :=
  emitted_revision_dominates_observed ⟨⟨0, 0, 0, false, 0, 0⟩, 0, 0⟩
    [SyncOp.recv ⟨MsgType.timerPause, 5, 10, ⟨none, none, none⟩⟩ 0]
    MsgType.timerStart ⟨none, none, none⟩ 20 (by decide) 5 (by decide)

end ActivityTracker
